import Mathlib

/-!
Shallow embedding of the FinTrack-AI stock-performance and CSV-ingestion
module (`services/stock.ts`, `services/storage.ts`, `types.ts`).

JavaScript numbers are modelled as rationals (`ℚ`); `Math.floor` is `Int.floor`.
Optional / possibly-`undefined` values are modelled with `Option`.  Browser
`localStorage` state is passed explicitly: `getFeeDiscount` receives the
persisted fee-discount value (`none` when the key is unset; the stored string
is the `toString` image of a number, recovered exactly by `parseFloat`).
-/

namespace FinTrack

/-- `type` field of a ledger `Transaction` (`types.ts`). -/
inductive TxType where
  | EXPENSE
  | INCOME
  | DIVIDEND
deriving DecidableEq

/-- Ledger transaction (`types.ts` `Transaction`); only the fields read by
`calculateStockPerformance` are embedded. -/
structure Transaction where
  amount : ℚ
  item : String
  note : Option String
  type : TxType
deriving DecidableEq

/-- Stock position (`types.ts` `Asset`); only the stock-specific fields read by
`calculateStockPerformance` are embedded.  All are optional in the source. -/
structure Asset where
  symbol : Option String
  shares : Option ℚ
  avgCost : Option ℚ
  currentPrice : Option ℚ
  isEtf : Option Bool
deriving DecidableEq

/-- `types.ts` `StockPerformanceResult`. -/
structure StockPerformanceResult where
  totalCost : ℚ
  marketValue : ℚ
  estimatedReturn : ℚ
  netProfit : ℚ
  roi : ℚ
  buyFee : ℚ
  sellFee : ℚ
  tax : ℚ
  totalDividends : ℚ
deriving DecidableEq

/-- Models `Number(x) || 0`: an absent (`undefined`, hence `NaN`) numeric field
coerces to `0`, a present number is returned unchanged. -/
def numOr0 (x : Option ℚ) : ℚ := x.getD 0

/-- List-level prefix test, used to model JavaScript string primitives on
`String.data`. -/
def hasPrefixL : List Char → List Char → Bool
  | [], _ => true
  | _ :: _, [] => false
  | a :: as, b :: bs => a == b && hasPrefixL as bs

/-- List-level infix test. -/
def isInfixL : List Char → List Char → Bool
  | needle, [] => hasPrefixL needle []
  | needle, c :: rest => hasPrefixL needle (c :: rest) || isInfixL needle rest

/-- Models JavaScript `s.includes(pat)` (substring containment). -/
def includesStr (s pat : String) : Bool := isInfixL pat.data s.data

/-- Models JavaScript `s.startsWith(pre)`. -/
def strStartsWith (s pre : String) : Bool := hasPrefixL pre.data s.data

/-- `storage.ts` `getFeeDiscount`: the persisted value when set, else the fixed
default `0.28` (written `28/100`).  `stored` is the parsed numeric content of
the storage key. -/
def getFeeDiscount (stored : Option ℚ) : ℚ := stored.getD (28/100)

/-- Nominal commission rate `0.001425` (`feeRate` in
`calculateStockPerformance`), written as the exact fraction. -/
def feeRate : ℚ := 1425/1000000

/-- Minimum brokerage fee (`minFee` in `calculateStockPerformance`). -/
def minFee : ℚ := 20

/-- The inner `calculateFee` closure of `calculateStockPerformance`:
`Math.floor(price * shares * feeRate * feeDiscount)` clamped below by
`minFee`. -/
def calculateFee (feeDiscount shares price : ℚ) : ℚ :=
  let fee : ℚ := ((⌊price * shares * feeRate * feeDiscount⌋ : ℤ) : ℚ)
  if fee < minFee then minFee else fee

/-- ETF classification in `calculateStockPerformance`: the explicit boolean
flag when present, else whether the symbol starts with `"00"`
(`stock.symbol?.startsWith('00') || false`). -/
def isActuallyEtf (stock : Asset) : Bool :=
  match stock.isEtf with
  | some b => b
  | none =>
    match stock.symbol with
    | some s => strStartsWith s "00"
    | none => false

/-- The dividend-matching predicate of the source filter:
`t.type === 'DIVIDEND' && (t.item.includes(sym) || t.note?.includes(sym))`. -/
def dividendMatches (sym : String) (t : Transaction) : Bool :=
  (t.type == TxType.DIVIDEND) &&
    (includesStr t.item sym ||
      (match t.note with
       | some n => includesStr n sym
       | none => false))

/-- `totalDividends` accumulation of `calculateStockPerformance`: guarded by
`stock.symbol && transactions.length > 0` (an absent or empty symbol is falsy),
then the filtered `reduce` of amounts. -/
def totalDividendsOf (stock : Asset) (transactions : List Transaction) : ℚ :=
  match stock.symbol with
  | none => 0
  | some s =>
    if s = "" then 0
    else if transactions.length > 0 then
      (transactions.filter (dividendMatches s)).foldl (fun sum t => sum + t.amount) 0
    else 0

/-- `services/stock.ts` `calculateStockPerformance`.  `storedFeeDiscount` is
the explicit `localStorage` state read by the internal `getFeeDiscount()`
call; the TypeScript function itself takes only the position and the
transaction list. -/
def calculateStockPerformance (storedFeeDiscount : Option ℚ) (stock : Asset)
    (transactions : List Transaction) : StockPerformanceResult :=
  let shares := numOr0 stock.shares
  let avgCost := numOr0 stock.avgCost
  let currentPrice := numOr0 stock.currentPrice
  let totalDividends := totalDividendsOf stock transactions
  if shares = 0 ∨ avgCost = 0 then
    ⟨0, 0, 0, 0, 0, 0, 0, 0, totalDividends⟩
  else
    let feeDiscount := getFeeDiscount storedFeeDiscount
    let taxRate : ℚ := if isActuallyEtf stock then 1/1000 else 3/1000
    let buyValue := avgCost * shares
    let buyFee := calculateFee feeDiscount shares avgCost
    let totalCost := buyValue + buyFee
    let marketValue := currentPrice * shares
    let sellFee := calculateFee feeDiscount shares currentPrice
    let tax : ℚ := ((⌊marketValue * taxRate⌋ : ℤ) : ℚ)
    let estimatedReturn := marketValue - sellFee - tax
    let netProfit := estimatedReturn - totalCost
    let roi := if totalCost > 0 then netProfit / totalCost * 100 else 0
    ⟨totalCost, marketValue, estimatedReturn, netProfit, roi, buyFee, sellFee,
      tax, totalDividends⟩

/-- Truncation toward zero of a rational, for comparison with `Int.floor`
(which truncates toward negative infinity). -/
def ratTrunc (q : ℚ) : ℤ := if 0 ≤ q then ⌊q⌋ else ⌈q⌉

/-- The performance result's dividend sum exactly as claim C2 words it: the sum
of the amounts of the `DIVIDEND` transactions whose item or note contains the
symbol as a substring (no guard on the symbol being nonempty). -/
def claimedDividends (sym : String) (txs : List Transaction) : ℚ :=
  ((txs.filter (dividendMatches sym)).map Transaction.amount).sum

/-- Follows the spec's words for the contract
`calculateStockPerformance(position, transactions?, feeDiscountRate?)`: the fee
discount is a caller-supplied third argument that "defaults to a fixed constant
(0.28) when unset", instead of being read from storage inside the function.
Identical to `calculateStockPerformance` otherwise; used to compare the spec's
signature against the source's. -/
def calculateStockPerformanceSpecSig (stock : Asset) (transactions : List Transaction)
    (feeDiscountRate : Option ℚ) : StockPerformanceResult :=
  let shares := numOr0 stock.shares
  let avgCost := numOr0 stock.avgCost
  let currentPrice := numOr0 stock.currentPrice
  let totalDividends := totalDividendsOf stock transactions
  if shares = 0 ∨ avgCost = 0 then
    ⟨0, 0, 0, 0, 0, 0, 0, 0, totalDividends⟩
  else
    let feeDiscount := feeDiscountRate.getD (28/100)
    let taxRate : ℚ := if isActuallyEtf stock then 1/1000 else 3/1000
    let buyValue := avgCost * shares
    let buyFee := calculateFee feeDiscount shares avgCost
    let totalCost := buyValue + buyFee
    let marketValue := currentPrice * shares
    let sellFee := calculateFee feeDiscount shares currentPrice
    let tax : ℚ := ((⌊marketValue * taxRate⌋ : ℤ) : ℚ)
    let estimatedReturn := marketValue - sellFee - tax
    let netProfit := estimatedReturn - totalCost
    let roi := if totalCost > 0 then netProfit / totalCost * 100 else 0
    ⟨totalCost, marketValue, estimatedReturn, netProfit, roi, buyFee, sellFee,
      tax, totalDividends⟩

/-- The worked-example position of the spec: `2330`, 1000 shares at cost 600,
current price 650, explicitly not an ETF. -/
def exampleStock : Asset := ⟨some "2330", some 1000, some 600, some 650, some false⟩

/-- A degenerate position: empty-string symbol, no shares. -/
def emptySymbolStock : Asset := ⟨some "", none, some 5, some 10, none⟩

/-- A single dividend transaction used against `emptySymbolStock`. -/
def oneDividendTx : List Transaction := [⟨100, "xdiv", none, TxType.DIVIDEND⟩]

/-! ### CSV ingestion (`parseStockTransactionCSV`)

JavaScript string primitives are modelled directly on `String.data` so that
every step is executable.  `crypto.randomUUID()` is modelled by an explicit
id-generator argument `genId : Nat → String` giving the id assigned to the
n-th parsed record. -/

/-- Models JavaScript `s.trim()`: strip whitespace from both ends. -/
def trimL (s : String) : String :=
  ⟨((s.data.dropWhile Char.isWhitespace).reverse.dropWhile Char.isWhitespace).reverse⟩

/-- Models `s.replace(/"/g, '')`: drop every double-quote character. -/
def stripQuotes (s : String) : String := ⟨s.data.filter (fun c => !(c == '"'))⟩

/-- Models `s.replace(/"/g, '').replace(/,/g, '')` in `cleanNumber`. -/
def stripQuotesCommas (s : String) : String :=
  ⟨s.data.filter (fun c => !(c == '"') && !(c == ','))⟩

/-- Models `s.replace(/\//g, '-')`: every slash becomes a dash. -/
def replaceSlashes (s : String) : String :=
  ⟨s.data.map (fun c => if c == '/' then '-' else c)⟩

def splitOnCharAux (sep : Char) : List Char → List Char → List String
  | acc, [] => [⟨acc.reverse⟩]
  | acc, c :: rest =>
    if c == sep then ⟨acc.reverse⟩ :: splitOnCharAux sep [] rest
    else splitOnCharAux sep (c :: acc) rest

/-- Models JavaScript `s.split(sep)` for a single-character separator
(keeps empty segments, including a trailing one). -/
def splitOnChar (sep : Char) (s : String) : List String := splitOnCharAux sep [] s.data

def countQuotes (l : List Char) : Nat := l.countP (fun c => c == '"')

def splitQuoteAwareAux (total : Nat) : Nat → List Char → List Char → List String
  | _, acc, [] => [⟨acc.reverse⟩]
  | seen, acc, c :: rest =>
    if c == ',' && (total - seen) % 2 == 0 then
      ⟨acc.reverse⟩ :: splitQuoteAwareAux total seen [] rest
    else
      splitQuoteAwareAux total (if c == '"' then seen + 1 else seen) (c :: acc) rest

/-- Models `line.split(/,(?=(?:(?:[^"]*"){2})*[^"]*$)/)`: split at every comma
followed by an even number of double quotes up to the end of the line (i.e.
commas outside quoted fields).  `seen` tracks the quotes strictly before the
current position, so the suffix after a comma holds `total - seen` quotes. -/
def splitQuoteAware (s : String) : List String :=
  splitQuoteAwareAux (countQuotes s.data) 0 [] s.data

/-- Models `Array.prototype.join(sep)`. -/
def joinWith (sep : String) : List String → String
  | [] => ""
  | [x] => x
  | x :: xs => x ++ sep ++ joinWith sep xs

def takeDigits : List Char → List Char × List Char
  | [] => ([], [])
  | c :: rest =>
    if c.isDigit then
      let (d, r) := takeDigits rest
      (c :: d, r)
    else ([], c :: rest)

def digitsToNat (l : List Char) : Nat :=
  l.foldl (fun n c => n * 10 + (c.toNat - '0'.toNat)) 0

/-- Models JavaScript `parseFloat`: skip leading whitespace, then parse the
longest prefix of the form `[+-]? digits [. digits] [eE [+-]? digits]`
(`none` when no digits at all, i.e. `NaN`).  The exact decimal value is
returned as a rational (built with `mkRat` from integer arithmetic);
`Infinity` literals are not modelled. -/
def parseFloatQ (s : String) : Option ℚ :=
  let l := s.data.dropWhile Char.isWhitespace
  let signNeg : Bool := match l with | '-' :: _ => true | _ => false
  let l1 := match l with | '-' :: r => r | '+' :: r => r | r => r
  let (ip, l2) := takeDigits l1
  let (fp, l3) := match l2 with
    | '.' :: r => takeDigits r
    | r => ([], r)
  if ip.isEmpty && fp.isEmpty then none
  else
    let expVal : ℤ := match l3 with
      | e :: r =>
        if e == 'e' || e == 'E' then
          let eNeg : Bool := match r with | '-' :: _ => true | _ => false
          let r1 := match r with | '-' :: rr => rr | '+' :: rr => rr | rr => rr
          let (ed, _) := takeDigits r1
          if ed.isEmpty then 0
          else if eNeg then -(digitsToNat ed : ℤ) else (digitsToNat ed : ℤ)
        else 0
      | [] => 0
    let mantNum : ℤ := (digitsToNat ip : ℤ) * 10 ^ fp.length + (digitsToNat fp : ℤ)
    let signedNum : ℤ := if signNeg then -mantNum else mantNum
    some (if 0 ≤ expVal then
        mkRat (signedNum * 10 ^ expVal.toNat) (10 ^ fp.length)
      else
        mkRat signedNum (10 ^ fp.length * 10 ^ (-expVal).toNat))

/-- The parser's `cleanNumber`: `undefined` or empty gives 0, else strip
quotes and thousands-separator commas, `parseFloat`, and map `NaN` to 0. -/
def cleanNumber (s : Option String) : ℚ :=
  match s with
  | none => 0
  | some str =>
    if str = "" then 0
    else (parseFloatQ (stripQuotesCommas str)).getD 0

def dropSlash : List Char → List Char
  | '/' :: r => r
  | r => r

/-- Models `dateStr.match(/^\d{4}\/?\d{2}\/?\d{2}/)` being non-null: four
digits, an optional slash, two digits, an optional slash, two digits, at the
start of the string.  (Consuming an optional slash greedily is equivalent to
the regex since a slash can never satisfy the following `\d`.) -/
def dateMatches (s : String) : Bool :=
  match s.data with
  | a :: b :: c :: d :: rest =>
    if a.isDigit && b.isDigit && c.isDigit && d.isDigit then
      match dropSlash rest with
      | e :: f :: rest3 =>
        if e.isDigit && f.isDigit then
          match dropSlash rest3 with
          | g :: h :: _ => g.isDigit && h.isDigit
          | _ => false
        else false
      | _ => false
    else false
  | _ => false

/-- `side` of a `StockTransaction` (`types.ts`). -/
inductive Side where
  | BUY
  | SELL
deriving DecidableEq

/-- `types.ts` `StockTransaction`.  `realizedProfit` is optional in the
interface (`realizedProfit?: number`). -/
structure StockTransaction where
  id : String
  date : String
  symbol : String
  side : Side
  tradeType : String
  shares : ℚ
  price : ℚ
  fees : ℚ
  realizedProfit : Option ℚ
  amount : ℚ
deriving DecidableEq

/-- Return shape of `parseStockTransactionCSV`. -/
structure ParseResult where
  transactions : List StockTransaction
  error : Option String
deriving DecidableEq

/-- The parser's `findColumnIndex`: for each keyword in order, the first
header containing it as a substring; `none` models the sentinel `-1`. -/
def findColumnIndex (headers : List String) : List String → Option Nat
  | [] => none
  | k :: ks =>
    match headers.findIdx? (fun h => includesStr h k) with
    | some i => some i
    | none => findColumnIndex headers ks

/-- The parser's `columnMap`. -/
structure ColumnMap where
  date : Option Nat
  symbol : Option Nat
  side : Option Nat
  shares : Option Nat
  price : Option Nat
  amount : Option Nat
  realizedProfit : Option Nat
  fee : Option Nat
  tax : Option Nat
deriving DecidableEq

def mkColumnMap (headers : List String) : ColumnMap where
  date := findColumnIndex headers ["成交日期"]
  symbol := findColumnIndex headers ["股票代號"]
  side := findColumnIndex headers ["買賣別", "買賣"]
  shares := findColumnIndex headers ["成交數量", "股數", "成交股數"]
  price := findColumnIndex headers ["成交價", "成交單價", "成交價格"]
  amount := findColumnIndex headers ["應收付帳款", "收付金額", "發生金額"]
  realizedProfit := findColumnIndex headers ["損益"]
  fee := findColumnIndex headers ["手續費"]
  tax := findColumnIndex headers ["交易稅"]

/-- The parser's `requiredFields`: accessor into the column map paired with
the display name used in the error message. -/
def requiredFields : List ((ColumnMap → Option Nat) × String) :=
  [(ColumnMap.date, "成交日期"), (ColumnMap.symbol, "股票代號"),
   (ColumnMap.side, "買賣別"), (ColumnMap.shares, "成交數量"),
   (ColumnMap.price, "成交價"), (ColumnMap.amount, "應收付帳款")]

/-- `parts[i]` for an optional column index: `none` models both the `-1`
sentinel (JS `parts[-1]` is `undefined`) and an index beyond the row. -/
def cellAt (parts : List String) (idx : Option Nat) : Option String :=
  idx.bind parts.get?

/-- `parts[i]?.trim().replace(/"/g, '')`. -/
def cleanedCellAt (parts : List String) (idx : Option Nat) : Option String :=
  (cellAt parts idx).map (fun s => stripQuotes (trimL s))

/-- Whether a data line is a subtotal / grand-total marker
(`line.includes('小計') || line.includes('總計')`). -/
def subtotalLine (line : String) : Bool :=
  includesStr line "小計" || includesStr line "總計"

/-- The body of the parser's per-row loop after the subtotal check, wrapped in
`try/catch`: `none` means the row is skipped (empty or missing symbol/date,
date not matching the pattern, or the `TypeError` thrown — and caught — by
`parts[columnMap.side].trim()` when that cell is missing).  The record's `id`
is a placeholder; the caller assigns the generated id. -/
def parseLine (cmap : ColumnMap) (line : String) : Option StockTransaction :=
  let parts := splitQuoteAware line
  match cleanedCellAt parts cmap.symbol, cleanedCellAt parts cmap.date with
  | some symbol, some dateStr =>
    if symbol == "" || dateStr == "" || !(dateMatches dateStr) then none
    else
      match cellAt parts cmap.side with
      | none => none
      | some sideRaw =>
        let sideText := stripQuotes (trimL sideRaw)
        let side := if includesStr sideText "買" then Side.BUY else Side.SELL
        let fees := if cmap.fee.isSome then cleanNumber (cellAt parts cmap.fee) else 0
        let tax := if cmap.tax.isSome then cleanNumber (cellAt parts cmap.tax) else 0
        let totalFees := fees + tax
        let realizedProfitValue : ℚ :=
          if side = Side.SELL then
            (if cmap.realizedProfit.isSome then
              cleanNumber (cellAt parts cmap.realizedProfit) else 0)
          else 0
        some { id := "", date := replaceSlashes dateStr, symbol := symbol,
               side := side, tradeType := "",
               shares := cleanNumber (cellAt parts cmap.shares),
               price := cleanNumber (cellAt parts cmap.price),
               fees := totalFees, realizedProfit := some realizedProfitValue,
               amount := cleanNumber (cellAt parts cmap.amount) }
  | _, _ => none

/-- The essential-field check of the per-row loop, as a standalone predicate:
missing or empty symbol/date cells, or a date cell not matching the
`YYYY/MM/DD`-like pattern. -/
def essentialsBad (cmap : ColumnMap) (line : String) : Bool :=
  match cleanedCellAt (splitQuoteAware line) cmap.symbol,
        cleanedCellAt (splitQuoteAware line) cmap.date with
  | some sym, some d => sym == "" || d == "" || !(dateMatches d)
  | _, _ => true

/-- The parser's data-row loop (`for i = 1; ...`): skip subtotal rows, skip
rows whose per-row parse fails, and assign the next generated id to each
pushed record. -/
def parseLines (cmap : ColumnMap) (genId : Nat → String) :
    Nat → List String → List StockTransaction
  | _, [] => []
  | n, line :: rest =>
    if subtotalLine line then parseLines cmap genId n rest
    else
      match parseLine cmap line with
      | some tx => { tx with id := genId n } :: parseLines cmap genId (n + 1) rest
      | none => parseLines cmap genId n rest

/-- `csvText.split('\n').map(l => l.trim()).filter(l => l)`. -/
def csvLines (csvText : String) : List String :=
  ((splitOnChar '\n' csvText).map trimL).filter (fun l => !(l == ""))

/-- `lines[0].split(',').map(h => h.trim().replace(/"/g, ''))`. -/
def csvHeaders (csvText : String) : List String :=
  (splitOnChar ',' ((csvLines csvText).headD "")).map (fun h => stripQuotes (trimL h))

def csvColumnMap (csvText : String) : ColumnMap := mkColumnMap (csvHeaders csvText)

/-- The display names of the required fields whose column was not found. -/
def csvMissingNames (csvText : String) : List String :=
  (requiredFields.filter (fun f => (f.1 (csvColumnMap csvText)).isNone)).map (fun f => f.2)

/-- `services/stock.ts` `parseStockTransactionCSV`. -/
def parseStockTransactionCSV (genId : Nat → String) (csvText : String) : ParseResult :=
  let lines := csvLines csvText
  if lines.length < 2 then
    ⟨[], some "CSV 檔案是空的或缺少標題列 (Header)。"⟩
  else
    let missing := csvMissingNames csvText
    if missing = [] then
      ⟨parseLines (csvColumnMap csvText) genId 0 (lines.drop 1), none⟩
    else
      ⟨[], some ("CSV 檔案缺少必要的欄位，請檢查是否包含：" ++ joinWith "、" missing)⟩

/-- The spec's round-trip CSV: the six-column header and one BUY data row. -/
def csvRoundTrip : String :=
  "成交日期,股票代號,買賣別,成交數量,成交價,應收付帳款\n2024/01/15,2330,買進,1000,600,-600020"

/-- The round-trip CSV's data row alone. -/
def rowRoundTrip : String := "2024/01/15,2330,買進,1000,600,-600020"

/-- A CSV whose header lacks any amount-equivalent column. -/
def csvNoAmount : String := "成交日期,股票代號,買賣別,成交數量,成交價\n2024/01/15,2330,買進,1000,600"

/-- A single header line (missing almost every required column). -/
def csvHeaderOnly : String := "股票代號"

/-- The round-trip CSV with a subtotal row inserted. -/
def csvWithSubtotal : String :=
  "成交日期,股票代號,買賣別,成交數量,成交價,應收付帳款\n小計,,,1000,600,-600020\n2024/01/15,2330,買進,1000,600,-600020"

/-- A trivial id generator standing in for `crypto.randomUUID()`. -/
def gid0 : Nat → String := fun _ => ""

section PerfLemmas

variable (stored : Option ℚ) (stock : Asset) (txs : List Transaction)

lemma minFee_eq : minFee = 20 := rfl

lemma feeRate_eq : feeRate = 1425/1000000 := rfl

lemma calculateFee_eq_max (d s p : ℚ) :
    calculateFee d s p = max (((⌊p * s * feeRate * d⌋ : ℤ) : ℚ)) minFee := by
  by_cases h : ((⌊p * s * feeRate * d⌋ : ℤ) : ℚ) < minFee
  · simp only [calculateFee, if_pos h]
    exact (max_eq_right h.le).symm
  · simp only [calculateFee, if_neg h]
    exact (max_eq_left (le_of_not_lt h)).symm

lemma minFee_le_calculateFee (d s p : ℚ) : minFee ≤ calculateFee d s p := by
  rw [calculateFee_eq_max]
  exact le_max_right _ _

lemma max_floor_eq_max_ratTrunc (q m : ℚ) (hm : 0 ≤ m) :
    max ((⌊q⌋ : ℤ) : ℚ) m = max ((ratTrunc q : ℤ) : ℚ) m := by
  by_cases h : 0 ≤ q
  · simp [ratTrunc, h]
  · push_neg at h
    rw [ratTrunc, if_neg (not_le.mpr h)]
    have h1 : ((⌊q⌋ : ℤ) : ℚ) ≤ m := le_trans (Int.floor_le q) (le_trans h.le hm)
    have h2 : ((⌈q⌉ : ℤ) : ℚ) ≤ m := by
      have : (⌈q⌉ : ℤ) ≤ 0 := Int.ceil_le.mpr (by exact_mod_cast h.le)
      calc ((⌈q⌉ : ℤ) : ℚ) ≤ ((0 : ℤ) : ℚ) := by exact_mod_cast this
        _ ≤ m := by simpa using hm
    rw [max_eq_right h1, max_eq_right h2]

lemma not_zero_or (h1 : 0 < numOr0 stock.shares) (h2 : 0 < numOr0 stock.avgCost) :
    ¬(numOr0 stock.shares = 0 ∨ numOr0 stock.avgCost = 0) := by
  rintro (h | h)
  · rw [h] at h1; exact lt_irrefl 0 h1
  · rw [h] at h2; exact lt_irrefl 0 h2

lemma buyFee_pos (h : ¬(numOr0 stock.shares = 0 ∨ numOr0 stock.avgCost = 0)) :
    (calculateStockPerformance stored stock txs).buyFee =
      calculateFee (getFeeDiscount stored) (numOr0 stock.shares) (numOr0 stock.avgCost) := by
  simp only [calculateStockPerformance]
  rw [if_neg h]

lemma sellFee_pos (h : ¬(numOr0 stock.shares = 0 ∨ numOr0 stock.avgCost = 0)) :
    (calculateStockPerformance stored stock txs).sellFee =
      calculateFee (getFeeDiscount stored) (numOr0 stock.shares) (numOr0 stock.currentPrice) := by
  simp only [calculateStockPerformance]
  rw [if_neg h]

lemma tax_pos (h : ¬(numOr0 stock.shares = 0 ∨ numOr0 stock.avgCost = 0)) :
    (calculateStockPerformance stored stock txs).tax =
      ((⌊numOr0 stock.currentPrice * numOr0 stock.shares *
          (if isActuallyEtf stock then (1/1000 : ℚ) else 3/1000)⌋ : ℤ) : ℚ) := by
  simp only [calculateStockPerformance]
  rw [if_neg h]

lemma marketValue_pos (h : ¬(numOr0 stock.shares = 0 ∨ numOr0 stock.avgCost = 0)) :
    (calculateStockPerformance stored stock txs).marketValue =
      numOr0 stock.currentPrice * numOr0 stock.shares := by
  simp only [calculateStockPerformance]
  rw [if_neg h]

lemma calcPerf_zero (h : numOr0 stock.shares = 0 ∨ numOr0 stock.avgCost = 0) :
    calculateStockPerformance stored stock txs =
      ⟨0, 0, 0, 0, 0, 0, 0, 0, totalDividendsOf stock txs⟩ := by
  simp only [calculateStockPerformance]
  rw [if_pos h]

lemma foldl_amount (l : List Transaction) (c : ℚ) :
    l.foldl (fun sum t => sum + t.amount) c = c + (l.map Transaction.amount).sum := by
  induction l generalizing c with
  | nil => simp
  | cons t ts ih => simp [List.foldl_cons, ih]; ring

lemma totalDividendsOf_eq_claimed :
    totalDividendsOf stock txs =
      match stock.symbol with
      | some s => if s = "" then 0 else claimedDividends s txs
      | none => 0 := by
  unfold totalDividendsOf claimedDividends
  cases stock.symbol with
  | none => rfl
  | some s =>
    by_cases hs : s = ""
    · simp [hs]
    · by_cases hl : txs.length > 0
      · simp only [hs, if_neg hs, if_pos hl, foldl_amount, zero_add]
      · have : txs = [] := List.length_eq_zero.mp (Nat.eq_zero_of_not_pos hl)
        subst this
        simp [hs]

end PerfLemmas

section CsvLemmas

lemma strData_append (s t : String) : (s ++ t).data = s.data ++ t.data := by
  cases s; cases t; rfl

lemma hasPrefixL_self_append (n t : List Char) : hasPrefixL n (n ++ t) = true := by
  induction n with
  | nil => rfl
  | cons c cs ih => simp [hasPrefixL, ih]

lemma isInfixL_of_hasPrefixL (n h : List Char) (hp : hasPrefixL n h = true) :
    isInfixL n h = true := by
  cases h with
  | nil => simpa [isInfixL] using hp
  | cons c rest => simp [isInfixL, hp]

lemma isInfixL_append_left (n t : List Char) : isInfixL n (n ++ t) = true :=
  isInfixL_of_hasPrefixL _ _ (hasPrefixL_self_append n t)

lemma isInfixL_append_right (n a h : List Char) (hi : isInfixL n h = true) :
    isInfixL n (a ++ h) = true := by
  induction a with
  | nil => simpa using hi
  | cons c cs ih =>
    simp only [List.cons_append, isInfixL, Bool.or_eq_true]
    exact Or.inr ih

lemma mem_joinWith_substr (sep : String) (names : List String) (nm : String)
    (h : nm ∈ names) : isInfixL nm.data (joinWith sep names).data = true := by
  induction names with
  | nil => cases h
  | cons x xs ih =>
    cases xs with
    | nil =>
      have hx : nm = x := by simpa using h
      subst hx
      have h2 := isInfixL_append_left nm.data []
      rwa [List.append_nil] at h2
    | cons y ys =>
      rcases List.mem_cons.mp h with hx | hmem
      · subst hx
        have hj : joinWith sep (nm :: y :: ys) = nm ++ sep ++ joinWith sep (y :: ys) := rfl
        rw [hj, strData_append, strData_append, List.append_assoc]
        exact isInfixL_append_left _ _
      · have hj : joinWith sep (x :: y :: ys) = x ++ sep ++ joinWith sep (y :: ys) := rfl
        rw [hj, strData_append, strData_append]
        exact isInfixL_append_right _ _ _ (ih hmem)

lemma includesStr_append_joinWith (msg sep : String) (names : List String)
    (nm : String) (h : nm ∈ names) :
    includesStr (msg ++ joinWith sep names) nm = true := by
  unfold includesStr
  rw [strData_append]
  exact isInfixL_append_right _ _ _ (mem_joinWith_substr sep names nm h)

lemma parseLines_skip (cmap : ColumnMap) (genId : Nat → String) (line : String)
    (hskip : subtotalLine line = true ∨ parseLine cmap line = none) :
    ∀ (pre post : List String) (n : Nat),
      parseLines cmap genId n (pre ++ line :: post) =
        parseLines cmap genId n (pre ++ post) := by
  intro pre
  induction pre with
  | nil =>
    intro post n
    simp only [List.nil_append]
    rcases hskip with h | h
    · simp [parseLines, h]
    · by_cases hs : subtotalLine line = true
      · simp [parseLines, hs]
      · simp [parseLines, hs, h]
  | cons p ps ih =>
    intro post n
    simp only [List.cons_append, parseLines]
    by_cases hs : subtotalLine p = true
    · rw [if_pos hs, if_pos hs]
      exact ih post n
    · rw [if_neg hs, if_neg hs]
      cases hm : parseLine cmap p with
      | some tx =>
        simp only [hm]
        exact congrArg _ (ih post (n + 1))
      | none =>
        simp only [hm]
        exact ih post n

lemma parseLine_of_essentialsBad (cmap : ColumnMap) (line : String)
    (h : essentialsBad cmap line = true) : parseLine cmap line = none := by
  unfold essentialsBad at h
  unfold parseLine
  cases h1 : cleanedCellAt (splitQuoteAware line) cmap.symbol with
  | none => simp [h1]
  | some sym =>
    cases h2 : cleanedCellAt (splitQuoteAware line) cmap.date with
    | none => simp [h1, h2]
    | some d =>
      rw [h1, h2] at h
      have hb : (sym == "" || d == "" || !(dateMatches d)) = true := h
      simp only [h1, h2]
      rw [if_pos hb]

lemma parseLine_some_spec (cmap : ColumnMap) (line : String) (tx : StockTransaction)
    (h : parseLine cmap line = some tx) :
    ∃ sym d sideRaw,
      cleanedCellAt (splitQuoteAware line) cmap.symbol = some sym ∧
      cleanedCellAt (splitQuoteAware line) cmap.date = some d ∧
      cellAt (splitQuoteAware line) cmap.side = some sideRaw ∧
      tx = { id := "", date := replaceSlashes d, symbol := sym,
             side := if includesStr (stripQuotes (trimL sideRaw)) "買" then
               Side.BUY else Side.SELL,
             tradeType := "",
             shares := cleanNumber (cellAt (splitQuoteAware line) cmap.shares),
             price := cleanNumber (cellAt (splitQuoteAware line) cmap.price),
             fees := (if cmap.fee.isSome then
                 cleanNumber (cellAt (splitQuoteAware line) cmap.fee) else 0) +
               (if cmap.tax.isSome then
                 cleanNumber (cellAt (splitQuoteAware line) cmap.tax) else 0),
             realizedProfit := some
               (if (if includesStr (stripQuotes (trimL sideRaw)) "買" then
                     Side.BUY else Side.SELL) = Side.SELL then
                 (if cmap.realizedProfit.isSome then
                   cleanNumber (cellAt (splitQuoteAware line) cmap.realizedProfit)
                 else 0)
               else 0),
             amount := cleanNumber (cellAt (splitQuoteAware line) cmap.amount) } := by
  simp only [parseLine] at h
  split at h
  case h_2 => simp at h
  case h_1 sym d hsym hdate =>
    split at h
    case isTrue => simp at h
    case isFalse hgood =>
      split at h
      case h_1 hside => simp at h
      case h_2 sideRaw hside =>
        refine ⟨sym, d, sideRaw, hsym, hdate, hside, ?_⟩
        exact (Option.some.inj h).symm

lemma replaceSlashes_no_slash (s : String) :
    ∀ c ∈ (replaceSlashes s).data, c ≠ '/' := by
  intro c hc
  have hc' : c ∈ s.data.map (fun c => if c == '/' then '-' else c) := hc
  rcases List.mem_map.mp hc' with ⟨a, _, rfl⟩
  by_cases h : a == '/'
  · simp [h]
  · have he : (if a == '/' then '-' else a) = a := by simp [h]
    rw [he]
    intro heq
    rw [heq] at h
    simp at h

end CsvLemmas

end FinTrack

namespace FinTrack

set_option maxRecDepth 8000

/-- C1: for every position with coerced shares > 0 and coerced avgCost > 0,
`calculateStockPerformance` computes both `buyFee` and `sellFee` as
`max(floor(price * shares * 0.001425 * feeDiscount), 20)` — `buyFee` with
`price = avgCost`, `sellFee` with `price = currentPrice` — so both fees are
always at least the minimum fee 20, and the value compared against the minimum
is also the truncated-toward-zero product (floor and truncation agree under the
minimum clamp), never a rounded one. -/
theorem claim_C1_fee_formula (stored : Option ℚ) (stock : Asset)
    (txs : List Transaction)
    (h1 : 0 < numOr0 stock.shares) (h2 : 0 < numOr0 stock.avgCost) :
    (calculateStockPerformance stored stock txs).buyFee =
      max (((⌊numOr0 stock.avgCost * numOr0 stock.shares * (1425/1000000) *
        getFeeDiscount stored⌋ : ℤ) : ℚ)) 20 ∧
    (calculateStockPerformance stored stock txs).sellFee =
      max (((⌊numOr0 stock.currentPrice * numOr0 stock.shares * (1425/1000000) *
        getFeeDiscount stored⌋ : ℤ) : ℚ)) 20 ∧
    (calculateStockPerformance stored stock txs).buyFee =
      max (((ratTrunc (numOr0 stock.avgCost * numOr0 stock.shares * (1425/1000000) *
        getFeeDiscount stored) : ℤ) : ℚ)) 20 ∧
    (calculateStockPerformance stored stock txs).sellFee =
      max (((ratTrunc (numOr0 stock.currentPrice * numOr0 stock.shares * (1425/1000000) *
        getFeeDiscount stored) : ℤ) : ℚ)) 20 ∧
    20 ≤ (calculateStockPerformance stored stock txs).buyFee ∧
    20 ≤ (calculateStockPerformance stored stock txs).sellFee := by
  have hne := not_zero_or stock h1 h2
  have hb := buyFee_pos stored stock txs hne
  have hs := sellFee_pos stored stock txs hne
  have hfr : feeRate = 1425/1000000 := feeRate_eq
  have hmf : minFee = (20 : ℚ) := minFee_eq
  refine ⟨?_, ?_, ?_, ?_, ?_, ?_⟩
  · rw [hb, calculateFee_eq_max, hfr, hmf]
  · rw [hs, calculateFee_eq_max, hfr, hmf]
  · rw [hb, calculateFee_eq_max, hfr, hmf,
      max_floor_eq_max_ratTrunc _ _ (by norm_num)]
  · rw [hs, calculateFee_eq_max, hfr, hmf,
      max_floor_eq_max_ratTrunc _ _ (by norm_num)]
  · rw [hb]; have := minFee_le_calculateFee (getFeeDiscount stored)
      (numOr0 stock.shares) (numOr0 stock.avgCost); rwa [hmf] at this
  · rw [hs]; have := minFee_le_calculateFee (getFeeDiscount stored)
      (numOr0 stock.shares) (numOr0 stock.currentPrice); rwa [hmf] at this

/-- Witness for C1 at the spec's worked example (shares 1000, avgCost 600). -/
theorem claim_C1_fee_formula_witness :
    (0 : ℚ) < numOr0 exampleStock.shares ∧
    (calculateStockPerformance none exampleStock []).buyFee =
      max (((⌊numOr0 exampleStock.avgCost * numOr0 exampleStock.shares * (1425/1000000) *
        getFeeDiscount none⌋ : ℤ) : ℚ)) 20 :=
  ⟨by norm_num [numOr0, exampleStock],
    (claim_C1_fee_formula none exampleStock []
      (by norm_num [numOr0, exampleStock]) (by norm_num [numOr0, exampleStock])).1⟩

/-- C2 fails as stated: for the position with the empty-string symbol and no
shares, the code's `totalDividends` is 0 (the `stock.symbol && ...` guard treats
an empty symbol as falsy), while the claim's sum over dividend transactions
whose item or note contains the symbol as a substring matches every transaction
(the empty string is a substring of anything) and yields 100. -/
theorem claim_C2_counterexample :
    (numOr0 emptySymbolStock.shares = 0 ∨ numOr0 emptySymbolStock.avgCost = 0) ∧
    (calculateStockPerformance none emptySymbolStock oneDividendTx).totalDividends ≠
      claimedDividends ((emptySymbolStock.symbol).getD "") oneDividendTx := by
  constructor
  · left; rfl
  · have hL : (calculateStockPerformance none emptySymbolStock oneDividendTx).totalDividends
        = 0 := by decide
    have hfil : oneDividendTx.filter (dividendMatches "") = oneDividendTx := by decide
    have hmap : oneDividendTx.map Transaction.amount = [100] := by decide
    have hR : claimedDividends "" oneDividendTx = 100 := by
      simp [claimedDividends, hfil, hmap]
    rw [hL, show ((emptySymbolStock.symbol).getD "") = "" from rfl, hR]
    norm_num

/-- C2 (amended): for every position whose coerced shares or coerced avgCost is
0, the result is all-zero except `totalDividends`, which equals the claim's
dividend sum when the symbol is a nonempty string and is 0 when the symbol is
absent or empty. -/
theorem claim_C2_zero_shortcircuit (stored : Option ℚ) (stock : Asset)
    (txs : List Transaction)
    (h : numOr0 stock.shares = 0 ∨ numOr0 stock.avgCost = 0) :
    calculateStockPerformance stored stock txs =
      ⟨0, 0, 0, 0, 0, 0, 0, 0,
        match stock.symbol with
        | some s => if s = "" then 0 else claimedDividends s txs
        | none => 0⟩ := by
  rw [calcPerf_zero stored stock txs h, totalDividendsOf_eq_claimed]

/-- Witness for C2 (amended) at a zero-share position with a matched dividend. -/
theorem claim_C2_zero_shortcircuit_witness :
    (numOr0 emptySymbolStock.shares = 0 ∨ numOr0 emptySymbolStock.avgCost = 0) ∧
    calculateStockPerformance none emptySymbolStock oneDividendTx =
      ⟨0, 0, 0, 0, 0, 0, 0, 0, 0⟩ :=
  ⟨Or.inl rfl, claim_C2_zero_shortcircuit none emptySymbolStock oneDividendTx (Or.inl rfl)⟩

/-- C3: the spec's worked example.  With shares 1000, avgCost 600, currentPrice
650, `isEtf = false`, fee discount 0.28 and no transactions, the computation
returns buyFee 239, totalCost 600239, sellFee 259, tax 1950, estimatedReturn
647791, netProfit 47552 and roi = 47552/600239*100 (≈ 7.92). -/
theorem claim_C3_worked_example :
    calculateStockPerformance (some (28/100)) exampleStock [] =
      ⟨600239, 650000, 647791, 47552, 47552/600239*100, 239, 259, 1950, 0⟩ := by
  simp only [calculateStockPerformance, exampleStock, numOr0, getFeeDiscount,
    totalDividendsOf, isActuallyEtf, calculateFee, feeRate, minFee]
  simp only [Rat.add_def', Rat.sub_def', Rat.mul_def, Rat.div_def, Rat.inv_def,
    Rat.floor_def]
  decide

/-- C4: for every position with coerced shares > 0 and coerced avgCost > 0, the
tax is `floor(marketValue * r)` with `r = 0.001` exactly when the position is
classified as an ETF and `r = 0.003` otherwise; the classification is the
explicit boolean when `isEtf` is a boolean, else whether the symbol starts with
"00". -/
theorem claim_C4_tax (stored : Option ℚ) (stock : Asset) (txs : List Transaction)
    (h1 : 0 < numOr0 stock.shares) (h2 : 0 < numOr0 stock.avgCost) :
    (calculateStockPerformance stored stock txs).tax =
      ((⌊(calculateStockPerformance stored stock txs).marketValue *
        (if isActuallyEtf stock then (1/1000 : ℚ) else 3/1000)⌋ : ℤ) : ℚ) ∧
    (isActuallyEtf stock = true ↔
      stock.isEtf = some true ∨
        (stock.isEtf = none ∧
          ∃ s, stock.symbol = some s ∧ strStartsWith s "00" = true)) := by
  have hne := not_zero_or stock h1 h2
  constructor
  · rw [tax_pos stored stock txs hne, marketValue_pos stored stock txs hne]
  · unfold isActuallyEtf
    cases hE : stock.isEtf with
    | some b =>
      cases b <;> simp [hE]
    | none =>
      cases hS : stock.symbol with
      | some s => simp [hE, hS]
      | none => simp [hE, hS]

/-- Witness for C4 at the worked example (explicitly non-ETF). -/
theorem claim_C4_tax_witness :
    (0 : ℚ) < numOr0 exampleStock.shares ∧
    (calculateStockPerformance none exampleStock []).tax =
      ((⌊(calculateStockPerformance none exampleStock []).marketValue *
        (if isActuallyEtf exampleStock then (1/1000 : ℚ) else 3/1000)⌋ : ℤ) : ℚ) :=
  ⟨by norm_num [numOr0, exampleStock],
    (claim_C4_tax none exampleStock []
      (by norm_num [numOr0, exampleStock]) (by norm_num [numOr0, exampleStock])).1⟩

/-- C5 fails as stated: `calculateStockPerformance` has no caller-supplied
fee-discount argument — the discount is read from persisted storage inside the
function.  With storage holding 1 and no discount supplied anywhere by a
caller, the code's buyFee (855) differs from the spec-signature variant's
default-0.28 buyFee (239). -/
theorem claim_C5_counterexample :
    (calculateStockPerformance (some 1) exampleStock []).buyFee ≠
      (calculateStockPerformanceSpecSig exampleStock [] none).buyFee := by
  simp only [calculateStockPerformance, calculateStockPerformanceSpecSig, exampleStock,
    numOr0, getFeeDiscount, totalDividendsOf, isActuallyEtf, calculateFee, feeRate, minFee]
  simp only [Rat.add_def', Rat.sub_def', Rat.mul_def, Rat.div_def, Rat.inv_def,
    Rat.floor_def]
  decide

/-- C5 (amended): `calculateStockPerformance` takes no fee-discount parameter;
it reads the rate via `getFeeDiscount()`, which returns the persisted value
when one is stored and the fixed default 0.28 otherwise, and that rate
multiplies the nominal commission rate 0.001425 in both fee computations. -/
theorem claim_C5_fee_discount (stored : Option ℚ) (stock : Asset)
    (txs : List Transaction)
    (h1 : 0 < numOr0 stock.shares) (h2 : 0 < numOr0 stock.avgCost) :
    (calculateStockPerformance stored stock txs).buyFee =
      calculateFee (getFeeDiscount stored) (numOr0 stock.shares) (numOr0 stock.avgCost) ∧
    (calculateStockPerformance stored stock txs).sellFee =
      calculateFee (getFeeDiscount stored) (numOr0 stock.shares) (numOr0 stock.currentPrice) ∧
    getFeeDiscount none = 28/100 ∧
    (∀ q : ℚ, getFeeDiscount (some q) = q) ∧
    (∀ d s p : ℚ, calculateFee d s p =
      max (((⌊p * s * (1425/1000000) * d⌋ : ℤ) : ℚ)) 20) := by
  have hne := not_zero_or stock h1 h2
  refine ⟨buyFee_pos stored stock txs hne, sellFee_pos stored stock txs hne,
    rfl, fun q => rfl, fun d s p => ?_⟩
  rw [calculateFee_eq_max, feeRate_eq, minFee_eq]

/-- Witness for C5 (amended) at the worked example with empty storage. -/
theorem claim_C5_fee_discount_witness :
    (0 : ℚ) < numOr0 exampleStock.shares ∧
    (calculateStockPerformance none exampleStock []).buyFee =
      calculateFee (getFeeDiscount none) (numOr0 exampleStock.shares)
        (numOr0 exampleStock.avgCost) :=
  ⟨by norm_num [numOr0, exampleStock],
    (claim_C5_fee_discount none exampleStock []
      (by norm_num [numOr0, exampleStock]) (by norm_num [numOr0, exampleStock])).1⟩

end FinTrack

namespace FinTrack

/-- C6 fails as stated: an input consisting of the single header line
`股票代號` lacks an amount-equivalent column (and four others), yet the parser
returns the generic empty-file error, which does not name `應收付帳款` — the
`lines.length < 2` check fires before the header-schema check. -/
theorem claim_C6_counterexample :
    csvMissingNames csvHeaderOnly ≠ [] ∧
    "應收付帳款" ∈ csvMissingNames csvHeaderOnly ∧
    (parseStockTransactionCSV gid0 csvHeaderOnly).transactions = [] ∧
    (parseStockTransactionCSV gid0 csvHeaderOnly).error =
      some "CSV 檔案是空的或缺少標題列 (Header)。" ∧
    includesStr "CSV 檔案是空的或缺少標題列 (Header)。" "應收付帳款" = false := by
  refine ⟨by decide, by decide, by decide, by decide, by decide⟩

/-- C6 (amended): for every input with at least two nonempty trimmed lines
whose header lacks a column for one of the six required fields,
`parseStockTransactionCSV` returns no transactions and a non-null error
containing the name of every missing field. -/
theorem claim_C6_missing_columns (genId : Nat → String) (csv : String)
    (h2 : 2 ≤ (csvLines csv).length) (hmiss : csvMissingNames csv ≠ []) :
    (parseStockTransactionCSV genId csv).transactions = [] ∧
    ∃ e, (parseStockTransactionCSV genId csv).error = some e ∧
      ∀ nm ∈ csvMissingNames csv, includesStr e nm = true := by
  have hlt : ¬((csvLines csv).length < 2) := not_lt.mpr h2
  constructor
  · simp only [parseStockTransactionCSV]
    rw [if_neg hlt, if_neg hmiss]
  · refine ⟨"CSV 檔案缺少必要的欄位，請檢查是否包含：" ++ joinWith "、" (csvMissingNames csv),
      ?_, ?_⟩
    · simp only [parseStockTransactionCSV]
      rw [if_neg hlt, if_neg hmiss]
    · intro nm hnm
      exact includesStr_append_joinWith _ _ _ _ hnm

/-- Witness for C6 (amended) at a two-line CSV lacking the amount column. -/
theorem claim_C6_missing_columns_witness :
    (2 ≤ (csvLines csvNoAmount).length ∧ csvMissingNames csvNoAmount ≠ []) ∧
    (parseStockTransactionCSV gid0 csvNoAmount).transactions = [] :=
  ⟨⟨by decide, by decide⟩,
    (claim_C6_missing_columns gid0 csvNoAmount (by decide) (by decide)).1⟩

/-- C7: the spec's round-trip CSV parses with no error into exactly one
record: `BUY`, symbol `2330`, 1000 shares, price 600, amount −600020. -/
theorem claim_C7_roundtrip :
    (parseStockTransactionCSV gid0 csvRoundTrip).error = none ∧
    (parseStockTransactionCSV gid0 csvRoundTrip).transactions.map
        (fun t => (t.side, t.symbol, t.shares, t.price, t.amount)) =
      [(Side.BUY, "2330", 1000, 600, -600020)] := by
  refine ⟨by decide, by decide⟩

/-- C8: for every input passing header validation (two or more nonempty lines
and no missing required column) the parser returns `error = null` and the
records are exactly the fold of the per-row parser over the data lines; a
subtotal/grand-total line or any line whose per-row parse fails contributes
nothing and its removal leaves every other line's record unchanged (the
per-row `try/catch` keeps failures local, so no exception escapes); a line
with an empty or missing symbol or date cell, or with a date not matching the
`YYYY/MM/DD`-like pattern, always fails the per-row parse. -/
theorem claim_C8_per_row_isolation (genId : Nat → String) (csv : String)
    (h2 : 2 ≤ (csvLines csv).length) (hmiss : csvMissingNames csv = []) :
    (parseStockTransactionCSV genId csv).error = none ∧
    (parseStockTransactionCSV genId csv).transactions =
      parseLines (csvColumnMap csv) genId 0 ((csvLines csv).drop 1) ∧
    (∀ line, subtotalLine line = true ∨ parseLine (csvColumnMap csv) line = none →
      ∀ pre post n, parseLines (csvColumnMap csv) genId n (pre ++ line :: post) =
        parseLines (csvColumnMap csv) genId n (pre ++ post)) ∧
    (∀ line, essentialsBad (csvColumnMap csv) line = true →
      parseLine (csvColumnMap csv) line = none) := by
  have hlt : ¬((csvLines csv).length < 2) := not_lt.mpr h2
  refine ⟨?_, ?_, ?_, ?_⟩
  · simp only [parseStockTransactionCSV]
    rw [if_neg hlt, if_pos hmiss]
  · simp only [parseStockTransactionCSV]
    rw [if_neg hlt, if_pos hmiss]
  · intro line hskip pre post n
    exact parseLines_skip _ genId line hskip pre post n
  · intro line hbad
    exact parseLine_of_essentialsBad _ line hbad

/-- Witness for C8 at a CSV holding a `小計` subtotal row and one good row. -/
theorem claim_C8_per_row_isolation_witness :
    (2 ≤ (csvLines csvWithSubtotal).length ∧ csvMissingNames csvWithSubtotal = []) ∧
    (parseStockTransactionCSV gid0 csvWithSubtotal).error = none :=
  ⟨⟨by decide, by decide⟩,
    (claim_C8_per_row_isolation gid0 csvWithSubtotal (by decide) (by decide)).1⟩

/-- C9 fails as stated: the round-trip CSV's single BUY record carries
`realizedProfit = 0` — a present value, assigned by the
`side === 'SELL' ? ... : 0` ternary — not an absent one. -/
theorem claim_C9_counterexample :
    (parseStockTransactionCSV gid0 csvRoundTrip).transactions.map
        (fun t => (t.side, t.realizedProfit)) = [(Side.BUY, some (0 : ℚ))] := by
  decide

/-- C9 (amended): every parsed record has a `realizedProfit` value: for SELL
rows it is the cleaned 損益 cell when that column exists and 0 otherwise; for
BUY rows it is 0. -/
theorem claim_C9_realizedProfit (cmap : ColumnMap) (line : String)
    (tx : StockTransaction) (h : parseLine cmap line = some tx) :
    (tx.side = Side.BUY → tx.realizedProfit = some 0) ∧
    (tx.side = Side.SELL → tx.realizedProfit = some
      (if cmap.realizedProfit.isSome then
        cleanNumber (cellAt (splitQuoteAware line) cmap.realizedProfit) else 0)) := by
  obtain ⟨sym, d, sideRaw, h1, h2, h3, rfl⟩ := parseLine_some_spec cmap line tx h
  by_cases hc : includesStr (stripQuotes (trimL sideRaw)) "買" = true
  · constructor
    · intro _
      simp [hc]
    · intro hside
      simp [hc] at hside
  · constructor
    · intro hside
      simp [hc] at hside
    · intro _
      simp [hc]

/-- Witness for C9 (amended) at the round-trip CSV's BUY data row. -/
theorem claim_C9_realizedProfit_witness :
    (parseLine (csvColumnMap csvRoundTrip) rowRoundTrip).map
      (fun t => t.realizedProfit) = some (some (0 : ℚ)) := by
  cases hp : parseLine (csvColumnMap csvRoundTrip) rowRoundTrip with
  | none => exact absurd hp (by decide)
  | some tx =>
    have hside : tx.side = Side.BUY := by
      have hm : (parseLine (csvColumnMap csvRoundTrip) rowRoundTrip).map
          (fun t => t.side) = some Side.BUY := by decide
      rw [hp] at hm
      simpa using hm
    have hrp := (claim_C9_realizedProfit (csvColumnMap csvRoundTrip) rowRoundTrip tx hp).1 hside
    simp [hrp]

/-- C10: every record produced from a data row carries the row's cleaned date
cell with each '/' replaced by '-', and the returned date contains no '/'. -/
theorem claim_C10_date_normalized (cmap : ColumnMap) (line : String)
    (tx : StockTransaction) (h : parseLine cmap line = some tx) :
    (∃ d, cleanedCellAt (splitQuoteAware line) cmap.date = some d ∧
      tx.date = replaceSlashes d) ∧
    ∀ c ∈ tx.date.data, c ≠ '/' := by
  obtain ⟨sym, d, sideRaw, h1, h2, h3, rfl⟩ := parseLine_some_spec cmap line tx h
  refine ⟨⟨d, h2, rfl⟩, ?_⟩
  exact replaceSlashes_no_slash d

/-- Witness for C10 at the round-trip CSV's data row (`2024/01/15` comes back
as `2024-01-15`). -/
theorem claim_C10_date_normalized_witness :
    (parseLine (csvColumnMap csvRoundTrip) rowRoundTrip).map
      (fun t => t.date) = some "2024-01-15" := by
  cases hp : parseLine (csvColumnMap csvRoundTrip) rowRoundTrip with
  | none => exact absurd hp (by decide)
  | some tx =>
    obtain ⟨⟨d, hd, hdate⟩, _⟩ :=
      claim_C10_date_normalized (csvColumnMap csvRoundTrip) rowRoundTrip tx hp
    have hm : cleanedCellAt (splitQuoteAware rowRoundTrip) (csvColumnMap csvRoundTrip).date
        = some "2024/01/15" := by decide
    rw [hd] at hm
    have hdeq : d = "2024/01/15" := by simpa using hm
    subst hdeq
    have : replaceSlashes "2024/01/15" = "2024-01-15" := by decide
    simp [hdate, this]

end FinTrack
